import Mathlib

/-!
Verification development for the DocumentScanner repository.

The subject is the field-verification route of the backend
(`src/unnamed/part_007`): a Levenshtein-based fuzzy matcher that reconciles
OCR-extracted field values against user-corrected values and produces a
per-field report.  JavaScript values are embedded as the inductive type
`JVal`; JavaScript numbers are modelled as exact rationals (the route's
arithmetic is plain `+`, `*`, `/` on small decimal constants, and no claim
under study sits on a binary-floating-point representability boundary);
strings use Lean `String` (the route only ever trims, lower-cases,
concatenates and compares them, and all inputs of interest are ASCII).
-/

namespace DocVerify

/-- Embedding of the JavaScript values the verification route manipulates:
`null`, `undefined`, booleans, numbers (as exact rationals), strings, and
plain objects as insertion-ordered association lists.  Arrays and functions
do not occur in the route's data flow and are not modelled. -/
inductive JVal where
  | jnull
  | jundef
  | jbool (b : Bool)
  | jnum (q : ℚ)
  | jstr (s : String)
  | jobj (fields : List (String × JVal))

open JVal

/-- JavaScript truthiness: `null`, `undefined`, `false`, `0` and the empty
string are falsy; every object (including `\x7b\x7d`) is truthy.  `NaN` is not
representable in the rational model; no claim feeds a `NaN` number. -/
def truthy : JVal → Bool
  | jnull => false
  | jundef => false
  | jbool b => b
  | jnum q => decide (q ≠ 0)
  | jstr s => decide (s ≠ "")
  | jobj _ => true

/-- Property read `o[k]` on an object: first binding wins (a parsed JSON
object has no duplicate keys), missing keys give `undefined`. -/
def jget (o : List (String × JVal)) (k : String) : JVal :=
  match o.lookup k with
  | some v => v
  | none => jundef

/-- Property read on an arbitrary value.  On non-objects it returns
`undefined`; the only non-object reads the route can perform are with
field-name keys, for which JavaScript also yields `undefined` (string
index/length properties never collide with field names in any claim). -/
def jgetV : JVal → String → JVal
  | jobj o, k => jget o k
  | _, _ => jundef

/-- `Object.keys`.  For non-objects the route only reaches this behind an
`typeof === 'object'` guard or with `|| \x7b\x7d`; the JavaScript quirks of
index keys on strings and integer-like key reordering are not modelled (no
claim supplies a primitive source or integer-like field names). -/
def jkeysOf : JVal → List String
  | jobj o => o.map Prod.fst
  | _ => []

/-- `hasOwnProperty`. -/
def jhasOwn : JVal → String → Bool
  | jobj o, k => decide (k ∈ o.map Prod.fst)
  | _, _ => false

/-- Test used to embed the source's `!== undefined` comparisons. -/
def isUndef : JVal → Bool
  | jundef => true
  | _ => false

/-- Character-list core of string trimming: drop leading and trailing
whitespace, with the same whitespace predicate as Lean's `String.trim`. -/
def trimChars (cs : List Char) : List Char :=
  ((cs.dropWhile Char.isWhitespace).reverse.dropWhile Char.isWhitespace).reverse

/-- JavaScript `String.prototype.trim`, implemented by structural recursion
on the character list (Lean's own `String.trim` computes the same string but
through functions the kernel cannot evaluate). -/
def jsTrim (s : String) : String := ⟨trimChars s.data⟩

/-- JavaScript `String.prototype.endsWith`, as a suffix test on the
character lists. -/
def jsEndsWith (s suffix : String) : Bool := suffix.data.isSuffixOf s.data

/-- Digit-string parser backing the string case of `Number(...)`: an
optional sign followed by decimal digits.  Fractions, exponents and hex are
not modelled — no claim supplies such a confidence literal; every
non-numeric string still maps to `none` (JavaScript `NaN`). -/
def parseDigits (cs : List Char) : Option ℕ :=
  if cs ≠ [] ∧ cs.all (fun c => c.isDigit) then
    some (cs.foldl (fun n c => 10 * n + (c.toNat - 48)) 0)
  else none

/-- JavaScript `Number(x)`; `none` stands for `NaN`. -/
def jsToNumber : JVal → Option ℚ
  | jnum q => some q
  | jnull => some 0
  | jundef => none
  | jbool b => some (if b then 1 else 0)
  | jstr s =>
      match (jsTrim s).data with
      | [] => some 0
      | '-' :: rest => (parseDigits rest).map (fun n => -(n : ℚ))
      | cs => (parseDigits cs).map (fun n => (n : ℚ))
  | jobj _ => none

/-- The source's coercion `Number(x) || 0`: a `NaN` (and a literal `0`)
collapses to `0`. -/
def numOr0 (v : JVal) : ℚ := (jsToNumber v).getD 0

/-- JavaScript `.toString()` for the values reachable at the route's
coercion sites.  Only strings matter to the claims (falsy values are
short-circuited to `''` before `.toString()` is applied); non-integral
rationals render in `num/den` form, a deliberate divergence from float
printing that no claim observes. -/
def jsToString : JVal → String
  | jstr s => s
  | jnum q => if q.den = 1 then toString q.num else toString q
  | jbool b => if b then ("true") else ("false")
  | jnull => ("null")
  | jundef => ("undefined")
  | jobj _ => ("[object Object]")

/-- Helper for `levenshtein`: given `f = levenshtein a` and `la = a.length`,
computes `levenshtein (x :: a) b` by recursion on `b`.  Mirrors the cell
recurrence of the source's dynamic-programming matrix (part_007 lines 7-37):
on equal characters take the diagonal entry, otherwise one plus the minimum
of the diagonal, left and upper entries; the border entries are the string
lengths. -/
def levAux (x : Char) (f : List Char → ℕ) (la : ℕ) : List Char → ℕ
  | [] => la + 1
  | y :: b => if x = y then f b else Nat.min (f b) (Nat.min (f (y :: b)) (levAux x f la b)) + 1

/-- Levenshtein edit distance, the recurrence tabulated by the source's
matrix (part_007 `levenshtein`): empty against `b` is `b.length`, and the
step case is `levAux`. -/
def levenshtein : List Char → List Char → ℕ
  | [], b => b.length
  | x :: a, b => levAux x (levenshtein a) a.length b

/-- Status thresholds of part_007 lines 153-156: `combinedScore >= 95` is a
match, `>= 75` a partial match, anything below a mismatch. -/
def classify (c : ℚ) : String :=
  if c ≥ 95 then ("Match") else if c ≥ 75 then ("Partial Match") else ("Mismatch")

/-- One entry of the `results` array (part_007 lines 97-172).  `similarity`
and `combinedScore` hold the exact values whose `.toFixed(2)` rendering the
route serialises; the presence cases push the literal `'0.00'`, i.e. `0`. -/
structure Outcome where
  field : String
  ocrValue : String
  userValue : String
  similarity : ℚ
  ocr_confidence : ℚ
  combinedScore : ℚ
  status : String
  notes : String
  deriving DecidableEq

/-- Note attached to mismatching fields (part_007 line 160). -/
def mismatchNote : String := "Values differ significantly; please verify the correct value"

/-- User value resolution, part_007 line 72:
`(userData[key] || '').toString()`. -/
def userValueOf (user : JVal) (key : String) : String :=
  jsToString (if truthy (jgetV user key) then jgetV user key else jstr (""))

/-- Raw OCR value resolution, part_007 lines 75-79: inside an object source,
a truthy top-level `ocrData[key]` wins, else a truthy nested
`ocrData.fields[key]`, else the initial `''`. -/
def ocrRawOf : JVal → String → JVal
  | jobj o, key =>
      if truthy (jget o key) then jget o key
      else if truthy (jget o ("fields")) && truthy (jgetV (jget o ("fields")) key) then
        jgetV (jget o ("fields")) key
      else jstr ("")
  | _, _ => jstr ("")

/-- OCR value after the final coercion of part_007 line 80:
`(ocrValue || '').toString()`. -/
def ocrValueOf (ocr : JVal) (key : String) : String :=
  jsToString (if truthy (ocrRawOf ocr key) then ocrRawOf ocr key else jstr (""))

/-- OCR confidence resolution, part_007 lines 82-90: a defined top-level
`ocrData[key + '_confidence']` wins, else a defined
`ocrData.fields[key + '_confidence']` behind a truthiness guard on
`ocrData.fields`, else `0`; each read passes through `Number(...) || 0`. -/
def ocrConfOf : JVal → String → ℚ
  | jobj o, key =>
      if isUndef (jget o (key ++ "_confidence")) = false then
        numOr0 (jget o (key ++ "_confidence"))
      else if truthy (jget o ("fields")) && isUndef (jgetV (jget o ("fields")) (key ++ "_confidence")) = false then
        numOr0 (jgetV (jget o ("fields")) (key ++ "_confidence"))
      else 0
  | _, _ => 0

/-- Similarity computation of part_007 lines 144-146: case-insensitive
Levenshtein distance between the trimmed values, normalised by the greater
trimmed length (`0` when both lengths are zero). -/
def simOf (ocr user : JVal) (key : String) : ℚ :=
  let uTrim := jsTrim (userValueOf user key)
  let oTrim := jsTrim (ocrValueOf ocr key)
  let dist := levenshtein (uTrim.data.map Char.toLower) (oTrim.data.map Char.toLower)
  let maxLength := Nat.max uTrim.length oTrim.length
  if maxLength = 0 then 0 else (((maxLength : ℚ) - (dist : ℚ)) / (maxLength : ℚ)) * 100

/-- Combined score of part_007 lines 149-151: blend similarity with a
positive OCR confidence at weights `0.55`/`0.45`, else keep the bare
similarity. -/
def combOf (ocr user : JVal) (key : String) : ℚ :=
  if ocrConfOf ocr key > 0 then
    55 / 100 * simOf ocr user key + 45 / 100 * ocrConfOf ocr key
  else simOf ocr user key

/-- Body of the per-key loop, part_007 lines 68-172: the two skip guards
(metadata keys absent from `userData`, and any `_confidence` suffix), then
the four presence cases over the trimmed values, with the similarity,
combiner and classifier computations of the fourth case. -/
def evalKey (ocr user : JVal) (key : String) : Option Outcome :=
  if jhasOwn user key = false ∧ (key = "lines" ∨ key = "raw_text" ∨ key = "average_confidence") then
    none
  else if jsEndsWith key ("_confidence") then none
  else
    let ocrConf := ocrConfOf ocr key
    let uTrim := jsTrim (userValueOf user key)
    let oTrim := jsTrim (ocrValueOf ocr key)
    if uTrim = "" ∧ oTrim = "" then
      some ⟨key, "", "", 0, ocrConf, 0, "Not Provided", "No value provided by either OCR or user"⟩
    else if uTrim ≠ "" ∧ oTrim = "" then
      some ⟨key, "", uTrim, 0, ocrConf, 0, "User Added", "Value provided by user but not detected by OCR"⟩
    else if oTrim ≠ "" ∧ uTrim = "" then
      some ⟨key, oTrim, "", 0, ocrConf, 0, "OCR Present", "OCR found a value but user left the field empty"⟩
    else
      some ⟨key, oTrim, uTrim, simOf ocr user key, ocrConf, combOf ocr user key,
            classify (combOf ocr user key),
            if classify (combOf ocr user key) = "Mismatch" then mismatchNote else ""⟩

/-- Insertion into the key `Set` of part_007 line 55: a JavaScript `Set`
keeps first-insertion order. -/
def setAdd (s : List String) (k : String) : List String :=
  if k ∈ s then s else s ++ [k]

/-- Which keys the OCR source contributes, part_007 lines 59-65: the nested
`fields` keys when `ocrData.fields` is a truthy object, else the top-level
keys; nothing from a non-object source. -/
def ocrKeysOf : JVal → List String
  | jobj o =>
      match jget o ("fields") with
      | jobj f => f.map Prod.fst
      | _ => o.map Prod.fst
  | _ => []

/-- The `keysSet` construction of part_007 lines 55-65: keys of
`userData || \x7b\x7d` first, then the OCR-contributed keys. -/
def buildKeys (ocr user : JVal) : List String :=
  (ocrKeysOf ocr).foldl setAdd
    ((jkeysOf (if truthy user then user else jobj [])).foldl setAdd [])

/-- Contribution of an outcome to `totalScore` (part_007 line 174): the
source accumulates only in the fourth case, whose statuses are exactly
`Match`, `Partial Match` and `Mismatch`; the presence cases contribute
nothing. -/
def caseScore (o : Outcome) : ℚ :=
  if o.status = "Match" ∨ o.status = "Partial Match" ∨ o.status = "Mismatch" then
    o.combinedScore
  else 0

/-- Exact-rational model of `.toFixed(2)`: round to two decimal places. -/
def roundTo2 (q : ℚ) : ℚ := ((round (q * 100) : ℤ) : ℚ) / 100

/-- The route's successful response body (part_007 lines 180-183). -/
structure Report where
  results : List Outcome
  averageConfidence : ℚ
  deriving DecidableEq

/-- The verification route, part_007 lines 43-184: reject when either input
is falsy, otherwise evaluate every key of the built key set and average the
accumulated scores over the number of produced outcomes. -/
def verifyRoute (ocr user : JVal) : Except String Report :=
  if truthy ocr = false ∨ truthy user = false then
    .error ("Missing data for verification")
  else
    let results := (buildKeys ocr user).filterMap (evalKey ocr user)
    let fieldCount := results.length
    let totalScore := (results.map caseScore).sum
    .ok ⟨results, if fieldCount = 0 then 0 else roundTo2 (totalScore / (fieldCount : ℚ))⟩

/-- Resolution of the OCR value as the amended claim C2 words it: the
top-level entry when truthy, else the nested `fields` entry when truthy,
else empty.  Stated independently of `ocrRawOf` so that the agreement of
the two is a theorem, not a definition. -/
def specOcrValue (ocr : JVal) (key : String) : JVal :=
  if truthy (jgetV ocr key) then jgetV ocr key
  else if truthy (jgetV (jgetV ocr ("fields")) key) then jgetV (jgetV ocr ("fields")) key
  else jstr ("")

/-- Resolution of the OCR confidence as the amended claim C2 words it: the
top-level `<key>_confidence` entry when defined, else the nested
`fields.<key>_confidence` entry when defined (the route never consults
`fields_meta`), else `0`. -/
def specOcrConf (ocr : JVal) (key : String) : ℚ :=
  if isUndef (jgetV ocr (key ++ "_confidence")) = false then
    numOr0 (jgetV ocr (key ++ "_confidence"))
  else if isUndef (jgetV (jgetV ocr ("fields")) (key ++ "_confidence")) = false then
    numOr0 (jgetV (jgetV ocr ("fields")) (key ++ "_confidence"))
  else 0

/-- The key-drop predicate actually implemented by the route's skip guards
(part_007 lines 69-70): any `_confidence` suffix, and the three metadata
keys `lines`, `raw_text`, `average_confidence` only when `userData` does
not itself carry the key. -/
def dropB (user : JVal) (k : String) : Bool :=
  jsEndsWith k ("_confidence") ||
    (!(jhasOwn user k) && (k == "lines" || k == "raw_text" || k == "average_confidence"))

/-- The key sequence as the amended claim C7 words it: `userData` keys in
enumeration order, then OCR-contributed keys, first insertion winning. -/
def insertionKeys (ocr user : JVal) : List String :=
  ((jkeysOf user) ++ ocrKeysOf ocr).foldl setAdd []

/-- Report-level aggregate counts.  Modelled from the spec: the category
counts `totalFields`, `matchedFields`, `partialMatchFields` (here
`pmFields`) and `mismatchFields` are produced by
`ai-models/verification_service.py`, which is not under `src/` (only its
caller `backend/routes/verify.js` is); spec section 4.5 defines them as
counts over `results` together with the rounded mean of `combinedScore`. -/
structure AggReport where
  totalFields : ℕ
  matchedFields : ℕ
  pmFields : ℕ
  mismatchFields : ℕ
  averageConfidence : ℚ
  deriving DecidableEq

/-- Modelled from the spec: the aggregation step of
`ai-models/verification_service.py` (spec section 4.5), absent from `src/`:
count the outcomes per status and round the mean combined score, reporting
`0` on an empty result list. -/
def aggregate (results : List Outcome) : AggReport :=
  ⟨results.length,
   (results.filter (fun o => o.status == "Match")).length,
   (results.filter (fun o => o.status == "Partial Match")).length,
   (results.filter (fun o => o.status == "Mismatch")).length,
   if results.length = 0 then 0
   else roundTo2 (((results.map (fun o => o.combinedScore)).sum) / (results.length : ℚ))⟩

/-! ## General lemmas about the embedded definitions -/

theorem levenshtein_self : ∀ a : List Char, levenshtein a a = 0
  | [] => rfl
  | x :: a => by
      have ih := levenshtein_self a
      simp [levenshtein, levAux, ih]

theorem levAux_le (x : Char) (f : List Char → ℕ) (la : ℕ)
    (hf : ∀ b, f b ≤ Nat.max la b.length) :
    ∀ b, levAux x f la b ≤ Nat.max (la + 1) b.length
  | [] => by simp [levAux]
  | y :: b => by
      have e3 : Nat.max la b.length + 1 ≤ Nat.max (la + 1) (b.length + 1) := by
        simp only [Nat.max_def]
        split <;> split <;> omega
      by_cases hxy : x = y
      · simp only [levAux, if_pos hxy, List.length_cons]
        have h1 := hf b
        omega
      · simp only [levAux, if_neg hxy, List.length_cons]
        have h1 := hf b
        have h2 : Nat.min (f b) (Nat.min (f (y :: b)) (levAux x f la b)) ≤ f b :=
          Nat.min_le_left _ _
        omega

theorem levenshtein_le : ∀ a b : List Char, levenshtein a b ≤ Nat.max a.length b.length
  | [], b => by simp [levenshtein]
  | x :: a, b => by
      have h := levAux_le x (levenshtein a) a.length (fun c => levenshtein_le a c) b
      simpa [levenshtein] using h

theorem string_length_zero {s : String} (h : s.length = 0) : s = "" := by
  have hd : s.data = [] := List.length_eq_zero.mp h
  cases s
  simp_all

/-- Inversion principle for the per-key loop body: a produced outcome comes
from exactly one of the four presence cases, with the record the source
pushes in that case. -/
theorem evalKey_cases (ocr user : JVal) (key : String) (o : Outcome)
    (h : evalKey ocr user key = some o) :
    (jsTrim (userValueOf user key) = "" ∧ jsTrim (ocrValueOf ocr key) = "" ∧
      o = ⟨key, "", "", 0, ocrConfOf ocr key, 0, "Not Provided",
            "No value provided by either OCR or user"⟩) ∨
    (jsTrim (userValueOf user key) ≠ "" ∧ jsTrim (ocrValueOf ocr key) = "" ∧
      o = ⟨key, "", jsTrim (userValueOf user key), 0, ocrConfOf ocr key, 0, "User Added",
            "Value provided by user but not detected by OCR"⟩) ∨
    (jsTrim (userValueOf user key) = "" ∧ jsTrim (ocrValueOf ocr key) ≠ "" ∧
      o = ⟨key, jsTrim (ocrValueOf ocr key), "", 0, ocrConfOf ocr key, 0, "OCR Present",
            "OCR found a value but user left the field empty"⟩) ∨
    (jsTrim (userValueOf user key) ≠ "" ∧ jsTrim (ocrValueOf ocr key) ≠ "" ∧
      o = ⟨key, jsTrim (ocrValueOf ocr key), jsTrim (userValueOf user key),
            simOf ocr user key, ocrConfOf ocr key, combOf ocr user key,
            classify (combOf ocr user key),
            if classify (combOf ocr user key) = "Mismatch" then mismatchNote else ""⟩) := by
  simp only [evalKey] at h
  split at h
  · exact absurd h (by simp)
  split at h
  · exact absurd h (by simp)
  split at h
  · rename_i hc
    exact Or.inl ⟨hc.1, hc.2, (Option.some_inj.mp h).symm⟩
  split at h
  · rename_i hc1 hc2
    exact Or.inr (Or.inl ⟨hc2.1, hc2.2, (Option.some_inj.mp h).symm⟩)
  split at h
  · rename_i hc1 hc2 hc3
    exact Or.inr (Or.inr (Or.inl ⟨hc3.2, hc3.1, (Option.some_inj.mp h).symm⟩))
  · rename_i hc1 hc2 hc3
    have hu : jsTrim (userValueOf user key) ≠ "" := by
      intro hu
      by_cases ho : jsTrim (ocrValueOf ocr key) = ""
      · exact hc1 ⟨hu, ho⟩
      · exact hc3 ⟨ho, hu⟩
    have ho : jsTrim (ocrValueOf ocr key) ≠ "" := fun ho => hc2 ⟨hu, ho⟩
    exact Or.inr (Or.inr (Or.inr ⟨hu, ho, (Option.some_inj.mp h).symm⟩))

theorem classify_cases (c : ℚ) :
    classify c = "Match" ∨ classify c = "Partial Match" ∨ classify c = "Mismatch" := by
  unfold classify
  split
  · exact Or.inl rfl
  split
  · exact Or.inr (Or.inl rfl)
  · exact Or.inr (Or.inr rfl)

theorem caseScore_evalKey (ocr user : JVal) (key : String) (o : Outcome)
    (h : evalKey ocr user key = some o) : caseScore o = o.combinedScore := by
  rcases evalKey_cases ocr user key o h with ⟨_, _, rfl⟩ | ⟨_, _, rfl⟩ | ⟨_, _, rfl⟩ | ⟨_, _, rfl⟩
  · simp [caseScore]
  · simp [caseScore]
  · simp [caseScore]
  · rcases classify_cases (combOf ocr user key) with hc | hc | hc <;> simp [caseScore, hc]

theorem evalKey_field (ocr user : JVal) (key : String) (o : Outcome)
    (h : evalKey ocr user key = some o) : o.field = key := by
  rcases evalKey_cases ocr user key o h with ⟨_, _, rfl⟩ | ⟨_, _, rfl⟩ | ⟨_, _, rfl⟩ | ⟨_, _, rfl⟩ <;> rfl

theorem evalKey_isSome (ocr user : JVal) (key : String) :
    (evalKey ocr user key).isSome = !(dropB user key) := by
  unfold evalKey dropB
  split
  · rename_i hc
    obtain ⟨h1, h2⟩ := hc
    rcases h2 with rfl | rfl | rfl <;> simp [h1]
  split
  · rename_i hg1 hc2
    simp [hc2]
  · rename_i hg1 hg2
    have hends : jsEndsWith key ("_confidence") = false := by
      revert hg2
      cases jsEndsWith key ("_confidence") <;> simp
    cases hh : jhasOwn user key
    · have h2 : ¬(key = "lines" ∨ key = "raw_text" ∨ key = "average_confidence") :=
        fun hk => hg1 ⟨hh, hk⟩
      push_neg at h2
      obtain ⟨k1, k2, k3⟩ := h2
      have b1 : (key == "lines") = false := beq_eq_false_iff_ne.mpr k1
      have b2 : (key == "raw_text") = false := beq_eq_false_iff_ne.mpr k2
      have b3 : (key == "average_confidence") = false := beq_eq_false_iff_ne.mpr k3
      simp [hends, hh, b1, b2, b3]
      split
      · rfl
      split
      · rfl
      split
      · rfl
      · rfl
    · simp [hends, hh]
      split
      · rfl
      split
      · rfl
      split
      · rfl
      · rfl

theorem results_fields (ocr user : JVal) :
    ∀ keys : List String,
      ((keys.filterMap (evalKey ocr user)).map (fun o => o.field)) =
        keys.filter (fun k => !(dropB user k))
  | [] => rfl
  | k :: keys => by
      have ih := results_fields ocr user keys
      cases h : evalKey ocr user k with
      | none =>
          have hb : dropB user k = true := by
            have hs := evalKey_isSome ocr user k
            rw [h] at hs
            simpa using hs.symm
          simp [List.filterMap_cons, List.filter_cons, h, hb, ih]
      | some o =>
          have hb : dropB user k = false := by
            have hs := evalKey_isSome ocr user k
            rw [h] at hs
            simpa using hs.symm
          have hf := evalKey_field ocr user k o h
          simp [List.filterMap_cons, List.filter_cons, h, hb, hf, ih]

theorem mem_setAdd (init : List String) (a k : String) :
    k ∈ setAdd init a ↔ k ∈ init ∨ k = a := by
  unfold setAdd
  split
  · rename_i ha
    constructor
    · exact fun hk => Or.inl hk
    · rintro (hk | rfl)
      · exact hk
      · exact ha
  · simp

theorem mem_foldl_setAdd (k : String) :
    ∀ (l init : List String), k ∈ l.foldl setAdd init ↔ k ∈ init ∨ k ∈ l
  | [], init => by simp
  | a :: l, init => by
      have ih := mem_foldl_setAdd k l (setAdd init a)
      simp only [List.foldl_cons, ih, mem_setAdd, List.mem_cons]
      tauto

theorem verifyRoute_ok (ocr user : JVal) (r : Report)
    (h : verifyRoute ocr user = .ok r) :
    truthy ocr = true ∧ truthy user = true ∧
    r.results = (buildKeys ocr user).filterMap (evalKey ocr user) ∧
    r.averageConfidence =
      (if r.results.length = 0 then 0
       else roundTo2 (((r.results.map caseScore).sum) / (r.results.length : ℚ))) := by
  unfold verifyRoute at h
  split at h
  · exact absurd h (by simp)
  · rename_i hg
    simp only [not_or, Bool.not_eq_false] at hg
    have hr : r = ⟨(buildKeys ocr user).filterMap (evalKey ocr user), _⟩ :=
      ((Except.ok.injEq _ _).mp h).symm
    subst hr
    exact ⟨hg.1, hg.2, rfl, rfl⟩

theorem verifyRoute_error_iff (ocr user : JVal) :
    verifyRoute ocr user = .error ("Missing data for verification") ↔
      (truthy ocr = false ∨ truthy user = false) := by
  unfold verifyRoute
  split
  · rename_i hg
    simp [hg]
  · rename_i hg
    simp only [not_or, Bool.not_eq_false] at hg
    simp [hg.1, hg.2]

theorem buildKeys_eq_insertionKeys (ocr user : JVal) (hu : truthy user = true) :
    buildKeys ocr user = insertionKeys ocr user := by
  unfold buildKeys insertionKeys
  rw [if_pos hu, List.foldl_append]

theorem ocrRawOf_eq_spec (ocr : JVal) (key : String) :
    ocrRawOf ocr key = specOcrValue ocr key := by
  cases ocr with
  | jobj o =>
      unfold ocrRawOf specOcrValue
      simp only [jgetV]
      by_cases h1 : truthy (jget o key) = true
      · simp [h1]
      · simp only [Bool.not_eq_true] at h1
        simp only [h1, Bool.false_eq_true, if_false]
        cases hf : jget o ("fields") with
        | jobj f => simp [jgetV, truthy]
        | jnull => simp [jgetV, truthy]
        | jundef => simp [jgetV, truthy]
        | jbool b => cases b <;> simp [jgetV, truthy]
        | jnum q => simp [jgetV, truthy]
        | jstr t => simp [jgetV, truthy]
  | jnull => simp [jgetV, truthy, ocrRawOf, specOcrValue]
  | jundef => simp [jgetV, truthy, ocrRawOf, specOcrValue]
  | jbool b => cases b <;> simp [jgetV, truthy, ocrRawOf, specOcrValue]
  | jnum q => simp [jgetV, truthy, ocrRawOf, specOcrValue]
  | jstr t => simp [jgetV, truthy, ocrRawOf, specOcrValue]

theorem ocrConfOf_eq_spec (ocr : JVal) (key : String) :
    ocrConfOf ocr key = specOcrConf ocr key := by
  cases ocr with
  | jobj o =>
      unfold ocrConfOf specOcrConf
      simp only [jgetV]
      by_cases h1 : isUndef (jget o (key ++ "_confidence")) = false
      · simp [h1]
      · simp only [Bool.not_eq_false] at h1
        simp only [h1]
        cases hf : jget o ("fields") with
        | jobj f => simp [jgetV, truthy]
        | jnull => simp [jgetV, truthy, isUndef]
        | jundef => simp [jgetV, truthy, isUndef]
        | jbool b => cases b <;> simp [jgetV, truthy, isUndef]
        | jnum q => simp [jgetV, truthy, isUndef]
        | jstr t => simp [jgetV, truthy, isUndef]
  | jnull => simp [jgetV, truthy, isUndef, ocrConfOf, specOcrConf]
  | jundef => simp [jgetV, truthy, isUndef, ocrConfOf, specOcrConf]
  | jbool b => cases b <;> simp [jgetV, truthy, isUndef, ocrConfOf, specOcrConf]
  | jnum q => simp [jgetV, truthy, isUndef, ocrConfOf, specOcrConf]
  | jstr t => simp [jgetV, truthy, isUndef, ocrConfOf, specOcrConf]

theorem evalKey_ocr_fields (ocr user : JVal) (key : String) (o : Outcome)
    (h : evalKey ocr user key = some o) :
    o.ocrValue = jsTrim (ocrValueOf ocr key) ∧ o.ocr_confidence = ocrConfOf ocr key := by
  rcases evalKey_cases ocr user key o h with ⟨_, ho, rfl⟩ | ⟨_, ho, rfl⟩ | ⟨_, _, rfl⟩ | ⟨_, _, rfl⟩
  · exact ⟨ho.symm, rfl⟩
  · exact ⟨ho.symm, rfl⟩
  · exact ⟨rfl, rfl⟩
  · exact ⟨rfl, rfl⟩

theorem evalKey_user_falsy (ocr user : JVal) (key : String) (o : Outcome)
    (h : evalKey ocr user key = some o) (hv : truthy (jgetV user key) = false) :
    o.userValue = "" ∧ (o.status = "Not Provided" ∨ o.status = "OCR Present") := by
  have hsel : (if truthy (jgetV user key) = true then jgetV user key else jstr ("")) = jstr ("") := by
    rw [hv]
    simp
  have huv : jsTrim (userValueOf user key) = "" := by
    unfold userValueOf
    rw [hsel]
    decide
  rcases evalKey_cases ocr user key o h with ⟨hu, _, rfl⟩ | ⟨hu, _, rfl⟩ | ⟨hu, _, rfl⟩ | ⟨hu, _, rfl⟩
  · exact ⟨rfl, Or.inl rfl⟩
  · exact absurd huv hu
  · exact ⟨rfl, Or.inr rfl⟩
  · exact absurd huv hu

theorem evalKey_ocr_falsy (ocr user : JVal) (key : String) (o : Outcome)
    (h : evalKey ocr user key = some o) (hv : truthy (jgetV ocr key) = false)
    (hfv : truthy (jgetV (jgetV ocr ("fields")) key) = false) :
    o.ocrValue = "" ∧ (o.status = "Not Provided" ∨ o.status = "User Added") := by
  have hor : ocrRawOf ocr key = jstr ("") := by
    rw [ocrRawOf_eq_spec]
    unfold specOcrValue
    rw [hv, hfv]
    simp
  have hov : jsTrim (ocrValueOf ocr key) = "" := by
    unfold ocrValueOf
    rw [hor]
    decide
  rcases evalKey_cases ocr user key o h with ⟨_, ho, rfl⟩ | ⟨_, ho, rfl⟩ | ⟨_, ho, rfl⟩ | ⟨_, ho, rfl⟩
  · exact ⟨rfl, Or.inl rfl⟩
  · exact ⟨rfl, Or.inr rfl⟩
  · exact absurd hov ho
  · exact absurd hov ho

theorem evalKey_user_sub (ocr : JVal) (key : String) (u1 u2 : JVal)
    (hv1 : truthy (jgetV u1 key) = false) (hv2 : truthy (jgetV u2 key) = false)
    (hh : jhasOwn u1 key = jhasOwn u2 key ∨
      ¬(key = "lines" ∨ key = "raw_text" ∨ key = "average_confidence")) :
    evalKey ocr u1 key = evalKey ocr u2 key := by
  have huv : userValueOf u1 key = userValueOf u2 key := by
    unfold userValueOf
    rw [hv1, hv2]
    simp
  have hsim : simOf ocr u1 key = simOf ocr u2 key := by
    unfold simOf
    rw [huv]
  have hcomb : combOf ocr u1 key = combOf ocr u2 key := by
    unfold combOf
    rw [hsim]
  have hg : (jhasOwn u1 key = false ∧ (key = "lines" ∨ key = "raw_text" ∨ key = "average_confidence")) ↔
      (jhasOwn u2 key = false ∧ (key = "lines" ∨ key = "raw_text" ∨ key = "average_confidence")) := by
    rcases hh with hh | hh
    · rw [hh]
    · tauto
  simp only [evalKey, huv, hsim, hcomb]
  rw [if_congr hg rfl rfl]

theorem evalKey_ocr_sub (user : JVal) (key : String) (l1 l2 : List (String × JVal))
    (h1 : truthy (jget l1 key) = false) (h2 : truthy (jget l2 key) = false)
    (hf : jget l1 ("fields") = jget l2 ("fields"))
    (hc : jget l1 (key ++ "_confidence") = jget l2 (key ++ "_confidence")) :
    evalKey (jobj l1) user key = evalKey (jobj l2) user key := by
  have hraw : ocrRawOf (jobj l1) key = ocrRawOf (jobj l2) key := by
    simp only [ocrRawOf]
    rw [h1, h2, hf]
    simp
  have hval : ocrValueOf (jobj l1) key = ocrValueOf (jobj l2) key := by
    unfold ocrValueOf
    rw [hraw]
  have hconf : ocrConfOf (jobj l1) key = ocrConfOf (jobj l2) key := by
    simp only [ocrConfOf]
    rw [hc, hf]
  have hsim : simOf (jobj l1) user key = simOf (jobj l2) user key := by
    unfold simOf
    rw [hval]
  have hcomb : combOf (jobj l1) user key = combOf (jobj l2) user key := by
    unfold combOf
    rw [hconf, hsim]
  simp only [evalKey, hval, hconf, hsim, hcomb]

theorem classify_eq_match_iff (c : ℚ) : classify c = "Match" ↔ 95 ≤ c := by
  unfold classify
  split
  · rename_i h
    simpa using h
  split
  · rename_i h1 h2
    constructor
    · intro he
      exact absurd he (by decide)
    · intro hc
      exact absurd hc h1
  · rename_i h1 h2
    constructor
    · intro he
      exact absurd he (by decide)
    · intro hc
      exact absurd hc h1

theorem classify_eq_pm_iff (c : ℚ) : classify c = "Partial Match" ↔ (75 ≤ c ∧ c < 95) := by
  unfold classify
  split
  · rename_i h
    constructor
    · intro he
      exact absurd he (by decide)
    · rintro ⟨h75, hlt⟩
      exact absurd h (not_le.mpr hlt)
  split
  · rename_i h1 h2
    constructor
    · intro _
      exact ⟨h2, lt_of_not_le h1⟩
    · intro _
      rfl
  · rename_i h1 h2
    constructor
    · intro he
      exact absurd he (by decide)
    · rintro ⟨h75, _⟩
      exact absurd h75 h2

theorem classify_eq_mm_iff (c : ℚ) : classify c = "Mismatch" ↔ c < 75 := by
  unfold classify
  split
  · rename_i h
    constructor
    · intro he
      exact absurd he (by decide)
    · intro hc
      linarith
  split
  · rename_i h1 h2
    constructor
    · intro he
      exact absurd he (by decide)
    · intro hc
      exact absurd h2 (not_le.mpr hc)
  · rename_i h1 h2
    constructor
    · intro _
      exact lt_of_not_le h2
    · intro _
      rfl

/-- Concrete evaluation: both inputs `\x7b\x7d` pass validation and produce the
empty report. -/
theorem verify_empty_empty : verifyRoute (jobj []) (jobj []) = Except.ok ⟨[], 0⟩ := by
  simp [verifyRoute, truthy, buildKeys, jkeysOf, ocrKeysOf, jget, List.lookup]

/-! ## Claim theorems -/

/-- C1: for every reconciled field the status is decided by four mutually
exclusive presence cases in priority order over the trimmed values — both
empty gives `Not Provided`, user-only gives `User Added`, OCR-only gives
`OCR Present`, each with similarity and combined score fixed to `0` and the
prescribed note; when both are non-empty the status is the classifier of
the combined score with thresholds `95` and `75` (`95.00` is a match,
`94.99` and `75.00` partial matches, `74.99` a mismatch), and the mismatch
note is attached exactly to mismatches. -/
theorem claim1_status_classifier (ocr user : JVal) (key : String) (o : Outcome)
    (h : evalKey ocr user key = some o) :
    (o.userValue = "" ∧ o.ocrValue = "" →
        o.status = "Not Provided" ∧ o.similarity = 0 ∧ o.combinedScore = 0 ∧
        o.notes = "No value provided by either OCR or user") ∧
    (o.userValue ≠ "" ∧ o.ocrValue = "" →
        o.status = "User Added" ∧ o.similarity = 0 ∧ o.combinedScore = 0 ∧
        o.notes = "Value provided by user but not detected by OCR") ∧
    (o.userValue = "" ∧ o.ocrValue ≠ "" →
        o.status = "OCR Present" ∧ o.similarity = 0 ∧ o.combinedScore = 0 ∧
        o.notes = "OCR found a value but user left the field empty") ∧
    (o.userValue ≠ "" ∧ o.ocrValue ≠ "" →
        o.status = classify o.combinedScore ∧
        (o.status = "Match" ↔ 95 ≤ o.combinedScore) ∧
        (o.status = "Partial Match" ↔ (75 ≤ o.combinedScore ∧ o.combinedScore < 95)) ∧
        (o.status = "Mismatch" ↔ o.combinedScore < 75) ∧
        o.notes = (if o.status = "Mismatch" then mismatchNote else "")) ∧
    (classify 95 = "Match" ∧ classify (9499 / 100) = "Partial Match" ∧
      classify 75 = "Partial Match" ∧ classify (7499 / 100) = "Mismatch") := by
  have hb : classify 95 = "Match" ∧ classify (9499 / 100) = "Partial Match" ∧
      classify 75 = "Partial Match" ∧ classify (7499 / 100) = "Mismatch" := by
    refine ⟨?_, ?_, ?_, ?_⟩ <;> norm_num [classify]
  rcases evalKey_cases ocr user key o h with ⟨hu, ho, rfl⟩ | ⟨hu, ho, rfl⟩ | ⟨hu, ho, rfl⟩ | ⟨hu, ho, rfl⟩
  · exact ⟨fun _ => ⟨rfl, rfl, rfl, rfl⟩, fun hc => absurd rfl hc.1,
      fun hc => absurd rfl hc.2, fun hc => absurd rfl hc.1, hb⟩
  · exact ⟨fun hc => absurd hc.1 hu, fun _ => ⟨rfl, rfl, rfl, rfl⟩,
      fun hc => absurd hc.1 hu, fun hc => absurd rfl hc.2, hb⟩
  · exact ⟨fun hc => absurd hc.2 ho, fun hc => absurd rfl hc.1,
      fun _ => ⟨rfl, rfl, rfl, rfl⟩, fun hc => absurd rfl hc.1, hb⟩
  · exact ⟨fun hc => absurd hc.1 hu, fun hc => absurd hc.2 ho, fun hc => absurd hc.1 hu,
      fun _ => ⟨rfl, classify_eq_match_iff _, classify_eq_pm_iff _, classify_eq_mm_iff _, rfl⟩, hb⟩

/-- C3 counterexample: the claim predicts an `InvalidInput` error for
`ocrData = \x7b\x7d, userData = \x7b\x7d`; the route instead accepts the two truthy
empty objects and returns the empty report. -/
theorem claim3_counterexample : verifyRoute (jobj []) (jobj []) = Except.ok ⟨[], 0⟩ :=
  verify_empty_empty

/-- C3 (amended): the route fails with the `Missing data for verification`
error exactly when either input is falsy (absent, `null`, `false`, `0` or
the empty string) — not only when both are — and `ocrData = \x7b\x7d,
userData = \x7b\x7d` is accepted, yielding a report with zero fields and average
confidence `0` rather than an error. -/
theorem claim3_validation_amended :
    (∀ ocr user : JVal,
        verifyRoute ocr user = Except.error ("Missing data for verification") ↔
          (truthy ocr = false ∨ truthy user = false)) ∧
    verifyRoute (jobj []) (jobj []) = Except.ok ⟨[], 0⟩ :=
  ⟨verifyRoute_error_iff, verify_empty_empty⟩

/-! ## Concrete scenario evaluations -/

theorem evalKey_scB :
    evalKey (jobj [("name", jstr ("Jon Smith")), ("name_confidence", jnum 80)])
      (jobj [("name", jstr ("John Smith"))]) ("name") =
    some ⟨"name", "Jon Smith", "John Smith", 90, 80, 171 / 2, "Partial Match", ""⟩ := by
  have t0 : jsTrim ("") = "" := by decide
  have t1 : jsTrim ("John Smith") = "John Smith" := by decide
  have t2 : jsTrim ("Jon Smith") = "Jon Smith" := by decide
  have e1 : jsEndsWith ("name") ("_confidence") = false := by decide
  have d1 : levenshtein (['j', 'o', 'h', 'n', ' ', 's', 'm', 'i', 't', 'h'])
      (['j', 'o', 'n', ' ', 's', 'm', 'i', 't', 'h']) = 1 := by decide
  have l1 : ("John Smith").length = 10 := by decide
  have l2 : ("Jon Smith").length = 9 := by decide
  simp [evalKey, simOf, combOf, jhasOwn, ocrConfOf, userValueOf, ocrValueOf, ocrRawOf,
    jget, jgetV, jsToString, jsToNumber, numOr0, truthy, isUndef, classify,
    List.lookup, t0, t1, t2, e1, d1, l1, l2]
  norm_num
  all_goals simp

theorem evalKey_scB_skip :
    evalKey (jobj [("name", jstr ("Jon Smith")), ("name_confidence", jnum 80)])
      (jobj [("name", jstr ("John Smith"))]) ("name_confidence") = none := by
  have e1 : jsEndsWith ("name_confidence") ("_confidence") = true := by decide
  simp [evalKey, jhasOwn, e1]

theorem verify_scB :
    verifyRoute (jobj [("name", jstr ("Jon Smith")), ("name_confidence", jnum 80)])
      (jobj [("name", jstr ("John Smith"))]) =
    Except.ok ⟨[⟨"name", "Jon Smith", "John Smith", 90, 80, 171 / 2, "Partial Match", ""⟩],
      171 / 2⟩ := by
  simp [verifyRoute, truthy, buildKeys, jkeysOf, ocrKeysOf, jget, jgetV, List.lookup, setAdd,
    evalKey_scB, evalKey_scB_skip, caseScore]
  norm_num [roundTo2, round_eq]

theorem evalKey_scE :
    evalKey (jobj [("fields", jobj [("city", jstr ("Pune"))]),
        ("fields_meta", jobj [("city_confidence", jnum 60)])])
      (jobj [("city", jstr ("pune"))]) ("city") =
    some ⟨"city", "Pune", "pune", 100, 0, 100, "Match", ""⟩ := by
  have t0 : jsTrim ("") = "" := by decide
  have t1 : jsTrim ("pune") = "pune" := by decide
  have t2 : jsTrim ("Pune") = "Pune" := by decide
  have e1 : jsEndsWith ("city") ("_confidence") = false := by decide
  have d1 : levenshtein (['p', 'u', 'n', 'e']) (['p', 'u', 'n', 'e']) = 0 := by decide
  have l1 : ("pune").length = 4 := by decide
  have l2 : ("Pune").length = 4 := by decide
  simp [evalKey, simOf, combOf, jhasOwn, ocrConfOf, userValueOf, ocrValueOf, ocrRawOf,
    jget, jgetV, jsToString, jsToNumber, numOr0, truthy, isUndef, classify,
    List.lookup, t0, t1, t2, e1, d1, l1, l2]
  norm_num
  all_goals simp

theorem verify_scE :
    verifyRoute (jobj [("fields", jobj [("city", jstr ("Pune"))]),
        ("fields_meta", jobj [("city_confidence", jnum 60)])])
      (jobj [("city", jstr ("pune"))]) =
    Except.ok ⟨[⟨"city", "Pune", "pune", 100, 0, 100, "Match", ""⟩], 100⟩ := by
  simp [verifyRoute, truthy, buildKeys, jkeysOf, ocrKeysOf, jget, jgetV, List.lookup, setAdd,
    evalKey_scE, caseScore]
  norm_num [roundTo2, round_eq]

theorem evalKey_valuePrio :
    evalKey (jobj [("city", jstr ("Top")), ("fields", jobj [("city", jstr ("Nested"))])])
      (jobj [("city", jstr ("x"))]) ("city") =
    some ⟨"city", "Top", "x", 0, 0, 0, "Mismatch", mismatchNote⟩ := by
  have t0 : jsTrim ("") = "" := by decide
  have t1 : jsTrim ("x") = "x" := by decide
  have t2 : jsTrim ("Top") = "Top" := by decide
  have e1 : jsEndsWith ("city") ("_confidence") = false := by decide
  have d1 : levenshtein (['x']) (['t', 'o', 'p']) = 3 := by decide
  have l1 : ("x").length = 1 := by decide
  have l2 : ("Top").length = 3 := by decide
  simp [evalKey, simOf, combOf, jhasOwn, ocrConfOf, userValueOf, ocrValueOf, ocrRawOf,
    jget, jgetV, jsToString, jsToNumber, numOr0, truthy, isUndef, classify,
    List.lookup, t0, t1, t2, e1, d1, l1, l2]
  norm_num

theorem evalKey_confPrio :
    evalKey (jobj [("city", jstr ("v")), ("city_confidence", jnum 10),
        ("fields", jobj [("city", jstr ("v")), ("city_confidence", jnum 90)]),
        ("fields_meta", jobj [("city_confidence", jnum 50)])])
      (jobj [("city", jstr ("v"))]) ("city") =
    some ⟨"city", "v", "v", 100, 10, 119 / 2, "Mismatch", mismatchNote⟩ := by
  have t0 : jsTrim ("") = "" := by decide
  have t1 : jsTrim ("v") = "v" := by decide
  have e1 : jsEndsWith ("city") ("_confidence") = false := by decide
  have d1 : levenshtein (['v']) (['v']) = 0 := by decide
  have l1 : ("v").length = 1 := by decide
  simp [evalKey, simOf, combOf, jhasOwn, ocrConfOf, userValueOf, ocrValueOf, ocrRawOf,
    jget, jgetV, jsToString, jsToNumber, numOr0, truthy, isUndef, classify,
    List.lookup, t0, t1, e1, d1, l1]
  norm_num

theorem verify_text :
    verifyRoute (jobj [("text", jstr ("X"))]) (jobj []) =
    Except.ok ⟨[⟨"text", "X", "", 0, 0, 0, "OCR Present",
      "OCR found a value but user left the field empty"⟩], 0⟩ := by
  have t0 : jsTrim ("") = "" := by decide
  have t2 : jsTrim ("X") = "X" := by decide
  have e1 : jsEndsWith ("text") ("_confidence") = false := by decide
  have l1 : ("X").length = 1 := by decide
  simp [verifyRoute, truthy, buildKeys, jkeysOf, ocrKeysOf, setAdd, evalKey, simOf, combOf,
    jhasOwn, ocrConfOf, userValueOf, ocrValueOf, ocrRawOf, jget, jgetV, jsToString,
    jsToNumber, numOr0, isUndef, classify, List.lookup, caseScore, t0, t2, e1, l1]
  norm_num [roundTo2, round_eq]

theorem verify_lines :
    verifyRoute (jobj [("lines", jstr ("a"))]) (jobj [("lines", jstr ("a"))]) =
    Except.ok ⟨[⟨"lines", "a", "a", 100, 0, 100, "Match", ""⟩], 100⟩ := by
  have t0 : jsTrim ("") = "" := by decide
  have t1 : jsTrim ("a") = "a" := by decide
  have e1 : jsEndsWith ("lines") ("_confidence") = false := by decide
  have d1 : levenshtein (['a']) (['a']) = 0 := by decide
  have l1 : ("a").length = 1 := by decide
  simp [verifyRoute, truthy, buildKeys, jkeysOf, ocrKeysOf, setAdd, evalKey, simOf, combOf,
    jhasOwn, ocrConfOf, userValueOf, ocrValueOf, ocrRawOf, jget, jgetV, jsToString,
    jsToNumber, numOr0, isUndef, classify, List.lookup, caseScore, t0, t1, e1, d1, l1]
  norm_num [roundTo2, round_eq]
  all_goals simp

theorem verify_order :
    verifyRoute (jobj [("a", jstr ("1"))]) (jobj [("b", jstr ("2"))]) =
    Except.ok ⟨[⟨"b", "", "2", 0, 0, 0, "User Added",
        "Value provided by user but not detected by OCR"⟩,
      ⟨"a", "1", "", 0, 0, 0, "OCR Present",
        "OCR found a value but user left the field empty"⟩], 0⟩ := by
  have t0 : jsTrim ("") = "" := by decide
  have t1 : jsTrim ("1") = "1" := by decide
  have t2 : jsTrim ("2") = "2" := by decide
  have e1 : jsEndsWith ("a") ("_confidence") = false := by decide
  have e2 : jsEndsWith ("b") ("_confidence") = false := by decide
  simp [verifyRoute, truthy, buildKeys, jkeysOf, ocrKeysOf, setAdd, evalKey, simOf, combOf,
    jhasOwn, ocrConfOf, userValueOf, ocrValueOf, ocrRawOf, jget, jgetV, jsToString,
    jsToNumber, numOr0, isUndef, classify, List.lookup, caseScore, t0, t1, t2, e1, e2]
  norm_num [roundTo2, round_eq]

theorem verify_overConf :
    verifyRoute (jobj [("name", jstr ("a")), ("name_confidence", jnum 150)])
      (jobj [("name", jstr ("a"))]) =
    Except.ok ⟨[⟨"name", "a", "a", 100, 150, 245 / 2, "Match", ""⟩], 245 / 2⟩ := by
  have t0 : jsTrim ("") = "" := by decide
  have t1 : jsTrim ("a") = "a" := by decide
  have e1 : jsEndsWith ("name") ("_confidence") = false := by decide
  have e2 : jsEndsWith ("name_confidence") ("_confidence") = true := by decide
  have d1 : levenshtein (['a']) (['a']) = 0 := by decide
  have l1 : ("a").length = 1 := by decide
  simp [verifyRoute, truthy, buildKeys, jkeysOf, ocrKeysOf, setAdd, evalKey, simOf, combOf,
    jhasOwn, ocrConfOf, userValueOf, ocrValueOf, ocrRawOf, jget, jgetV, jsToString,
    jsToNumber, numOr0, isUndef, classify, List.lookup, caseScore, t0, t1, e1, e2, d1, l1]
  norm_num [roundTo2, round_eq]
  all_goals simp

theorem evalKey_userFalsy0 :
    evalKey (jobj [("x", jstr ("v"))]) (jobj [("x", jnum 0)]) ("x") =
    some ⟨"x", "v", "", 0, 0, 0, "OCR Present",
      "OCR found a value but user left the field empty"⟩ := by
  have t0 : jsTrim ("") = "" := by decide
  have t2 : jsTrim ("v") = "v" := by decide
  have e1 : jsEndsWith ("x") ("_confidence") = false := by decide
  simp [evalKey, simOf, combOf, jhasOwn, ocrConfOf, userValueOf, ocrValueOf, ocrRawOf,
    jget, jgetV, jsToString, jsToNumber, numOr0, truthy, isUndef, classify,
    List.lookup, t0, t2, e1]

theorem status_counts_sum : ∀ results : List Outcome,
    (results.filter (fun o => o.status == "Match")).length +
      (results.filter (fun o => o.status == "Partial Match")).length +
      (results.filter (fun o => o.status == "Mismatch")).length =
    (results.filter (fun o =>
      o.status == "Match" || o.status == "Partial Match" || o.status == "Mismatch")).length
  | [] => rfl
  | o :: rest => by
      have ih := status_counts_sum rest
      simp only [List.filter_cons]
      cases hb1 : (o.status == "Match") with
      | false =>
          cases hb2 : (o.status == "Partial Match") with
          | false =>
              cases hb3 : (o.status == "Mismatch") with
              | false => simp [hb1, hb2, hb3, ih]
              | true =>
                  simp [hb1, hb2, hb3]
                  omega
          | true =>
              cases hb3 : (o.status == "Mismatch") with
              | false =>
                  simp [hb1, hb2, hb3]
                  omega
              | true => exact absurd ((eq_of_beq hb2).symm.trans (eq_of_beq hb3)) (by decide)
      | true =>
          cases hb2 : (o.status == "Partial Match") with
          | false =>
              cases hb3 : (o.status == "Mismatch") with
              | false =>
                  simp [hb1, hb2, hb3]
                  omega
              | true => exact absurd ((eq_of_beq hb1).symm.trans (eq_of_beq hb3)) (by decide)
          | true => exact absurd ((eq_of_beq hb1).symm.trans (eq_of_beq hb2)) (by decide)

theorem ratio_bounds (M d : ℕ) (hdM : d ≤ M) :
    0 ≤ (if M = 0 then (0 : ℚ) else (((M : ℚ) - (d : ℚ)) / (M : ℚ)) * 100) ∧
      (if M = 0 then (0 : ℚ) else (((M : ℚ) - (d : ℚ)) / (M : ℚ)) * 100) ≤ 100 := by
  by_cases hM0 : M = 0
  · simp [hM0]
  · have hMpos : (0 : ℚ) < M := by exact_mod_cast Nat.pos_of_ne_zero hM0
    have hdq : (d : ℚ) ≤ M := by exact_mod_cast hdM
    have hd0 : (0 : ℚ) ≤ d := by positivity
    rw [if_neg hM0]
    have h1 : ((M : ℚ) - d) / M ≤ 1 := by
      rw [div_le_one hMpos]
      linarith
    have h0 : 0 ≤ ((M : ℚ) - d) / M := div_nonneg (by linarith) (le_of_lt hMpos)
    constructor
    · nlinarith
    · nlinarith

theorem simOf_bounds (ocr user : JVal) (key : String) :
    0 ≤ simOf ocr user key ∧ simOf ocr user key ≤ 100 := by
  have hdM : levenshtein ((jsTrim (userValueOf user key)).data.map Char.toLower)
      ((jsTrim (ocrValueOf ocr key)).data.map Char.toLower) ≤
      Nat.max (jsTrim (userValueOf user key)).length (jsTrim (ocrValueOf ocr key)).length := by
    have h := levenshtein_le ((jsTrim (userValueOf user key)).data.map Char.toLower)
      ((jsTrim (ocrValueOf ocr key)).data.map Char.toLower)
    rw [List.length_map, List.length_map] at h
    exact h
  simp only [simOf]
  exact ratio_bounds _ _ hdM

/-- C6: for every field with both trimmed values non-empty, the combined
score blends similarity and a positive OCR confidence at `0.55`/`0.45`, and
equals the bare similarity otherwise, while every presence case fixes the
combined score to `0`; Scenario B evaluates to similarity `90`, combined
score `85.50` and a partial match. -/
theorem claim6_combiner :
    (∀ ocr user key o, evalKey ocr user key = some o →
        ((o.userValue ≠ "" ∧ o.ocrValue ≠ "") →
            o.combinedScore =
              (if 0 < o.ocr_confidence then
                55 / 100 * o.similarity + 45 / 100 * o.ocr_confidence
               else o.similarity)) ∧
        ((o.userValue = "" ∨ o.ocrValue = "") → o.combinedScore = 0)) ∧
    verifyRoute (jobj [("name", jstr ("Jon Smith")), ("name_confidence", jnum 80)])
        (jobj [("name", jstr ("John Smith"))]) =
      Except.ok ⟨[⟨"name", "Jon Smith", "John Smith", 90, 80, 171 / 2, "Partial Match", ""⟩],
        171 / 2⟩ := by
  refine ⟨?_, verify_scB⟩
  intro ocr user key o h
  rcases evalKey_cases ocr user key o h with ⟨hu, ho, rfl⟩ | ⟨hu, ho, rfl⟩ | ⟨hu, ho, rfl⟩ | ⟨hu, ho, rfl⟩
  · exact ⟨fun hc => absurd rfl hc.1, fun _ => rfl⟩
  · exact ⟨fun hc => absurd rfl hc.2, fun _ => rfl⟩
  · exact ⟨fun hc => absurd rfl hc.1, fun _ => rfl⟩
  · refine ⟨fun _ => rfl, fun hc => ?_⟩
    rcases hc with hc | hc
    · exact absurd hc hu
    · exact absurd hc ho

/-- C6 witness: the combiner equation instantiated at Scenario B. -/
theorem claim6_witness :
    (171 / 2 : ℚ) =
      (if 0 < (80 : ℚ) then 55 / 100 * (90 : ℚ) + 45 / 100 * (80 : ℚ) else (90 : ℚ)) :=
  (claim6_combiner.1 _ _ _ _ evalKey_scB).1 (by decide)

/-- C5: the route's average confidence is the rounded mean of the outcomes'
combined scores (`0` for an empty result list), and the aggregate counts —
modelled from the spec for the Python verification service absent from
`src/` — are the length of `results` and the per-status counts, to which the
three presence statuses contribute nothing. -/
theorem claim5_aggregation :
    (∀ ocr user r, verifyRoute ocr user = Except.ok r →
        r.averageConfidence =
          (if r.results.length = 0 then 0
           else roundTo2 (((r.results.map (fun o => o.combinedScore)).sum) /
             (r.results.length : ℚ)))) ∧
    (∀ results : List Outcome,
        (aggregate results).totalFields = results.length ∧
        (aggregate results).matchedFields =
          (results.filter (fun o => o.status == "Match")).length ∧
        (aggregate results).pmFields =
          (results.filter (fun o => o.status == "Partial Match")).length ∧
        (aggregate results).mismatchFields =
          (results.filter (fun o => o.status == "Mismatch")).length ∧
        (aggregate results).averageConfidence =
          (if results.length = 0 then 0
           else roundTo2 (((results.map (fun o => o.combinedScore)).sum) /
             (results.length : ℚ)))) ∧
    (∀ results : List Outcome,
        (aggregate results).matchedFields + (aggregate results).pmFields +
          (aggregate results).mismatchFields =
        (results.filter (fun o =>
          o.status == "Match" || o.status == "Partial Match" || o.status == "Mismatch")).length) := by
  refine ⟨?_, fun results => ⟨rfl, rfl, rfl, rfl, rfl⟩, fun results => status_counts_sum results⟩
  intro ocr user r h
  obtain ⟨_, _, hres, havg⟩ := verifyRoute_ok ocr user r h
  have hmap : r.results.map caseScore = r.results.map (fun o => o.combinedScore) := by
    apply List.map_congr_left
    intro o ho
    rw [hres] at ho
    obtain ⟨k, hk, hek⟩ := List.mem_filterMap.mp ho
    exact caseScore_evalKey ocr user k o hek
  rw [havg, hmap]

/-- C5 witness: the average-confidence equation instantiated at the
Scenario B report. -/
theorem claim5_witness :
    (⟨[⟨"name", "Jon Smith", "John Smith", 90, 80, 171 / 2, "Partial Match", ""⟩],
        171 / 2⟩ : Report).averageConfidence =
      (if (⟨[⟨"name", "Jon Smith", "John Smith", 90, 80, 171 / 2, "Partial Match", ""⟩],
          171 / 2⟩ : Report).results.length = 0 then 0
       else roundTo2 ((((⟨[⟨"name", "Jon Smith", "John Smith", 90, 80, 171 / 2,
          "Partial Match", ""⟩], 171 / 2⟩ : Report).results.map
            (fun o => o.combinedScore)).sum) /
         ((⟨[⟨"name", "Jon Smith", "John Smith", 90, 80, 171 / 2, "Partial Match", ""⟩],
            171 / 2⟩ : Report).results.length : ℚ))) :=
  claim5_aggregation.1 _ _ _ verify_scB

/-- C1 witness: the classifier case instantiated at Scenario B. -/
theorem claim1_witness :
    ("Partial Match" : String) = classify (171 / 2) ∧ classify 95 = "Match" := by
  have h := claim1_status_classifier _ _ _ _ evalKey_scB
  exact ⟨(h.2.2.2.1 (by decide)).1, h.2.2.2.2.1⟩

/-- C2 counterexample: on Scenario E the route ignores `fields_meta`, so the
confidence resolves to `0` and the outcome is a `Match` with combined score
`100` — not the claimed `PartialMatch` with `82`; moreover a truthy
top-level value wins over the nested `fields` value, and a defined
top-level `<key>_confidence` wins over the nested one, the reverse of the
claimed priority. -/
theorem claim2_counterexample :
    verifyRoute (jobj [("fields", jobj [("city", jstr ("Pune"))]),
        ("fields_meta", jobj [("city_confidence", jnum 60)])])
      (jobj [("city", jstr ("pune"))]) =
      Except.ok ⟨[⟨"city", "Pune", "pune", 100, 0, 100, "Match", ""⟩], 100⟩ ∧
    evalKey (jobj [("city", jstr ("Top")), ("fields", jobj [("city", jstr ("Nested"))])])
      (jobj [("city", jstr ("x"))]) ("city") =
      some ⟨"city", "Top", "x", 0, 0, 0, "Mismatch", mismatchNote⟩ ∧
    evalKey (jobj [("city", jstr ("v")), ("city_confidence", jnum 10),
        ("fields", jobj [("city", jstr ("v")), ("city_confidence", jnum 90)]),
        ("fields_meta", jobj [("city_confidence", jnum 50)])])
      (jobj [("city", jstr ("v"))]) ("city") =
      some ⟨"city", "v", "v", 100, 10, 119 / 2, "Mismatch", mismatchNote⟩ :=
  ⟨verify_scE, evalKey_valuePrio, evalKey_confPrio⟩

/-- C2 (amended): the OCR value resolves from the truthy top-level entry
first, else the truthy nested `fields` entry, else empty; the OCR
confidence resolves from the defined top-level `<key>_confidence` first,
else the defined nested `fields.<key>_confidence` — never `fields_meta` —
else `0`; every outcome carries exactly these resolved values, and Scenario
E therefore yields similarity `100`, combined score `100` and status
`Match`. -/
theorem claim2_resolution_amended :
    (∀ ocr key, ocrRawOf ocr key = specOcrValue ocr key) ∧
    (∀ ocr key, ocrConfOf ocr key = specOcrConf ocr key) ∧
    (∀ ocr user key o, evalKey ocr user key = some o →
        o.ocrValue = jsTrim (ocrValueOf ocr key) ∧ o.ocr_confidence = ocrConfOf ocr key) ∧
    verifyRoute (jobj [("fields", jobj [("city", jstr ("Pune"))]),
        ("fields_meta", jobj [("city_confidence", jnum 60)])])
      (jobj [("city", jstr ("pune"))]) =
      Except.ok ⟨[⟨"city", "Pune", "pune", 100, 0, 100, "Match", ""⟩], 100⟩ :=
  ⟨ocrRawOf_eq_spec, ocrConfOf_eq_spec,
   fun ocr user key o h => evalKey_ocr_fields ocr user key o h, verify_scE⟩

/-- C2 witness: the resolved-value equations instantiated at Scenario E. -/
theorem claim2_witness :
    ("Pune" : String) =
      jsTrim (ocrValueOf (jobj [("fields", jobj [("city", jstr ("Pune"))]),
        ("fields_meta", jobj [("city_confidence", jnum 60)])]) ("city")) :=
  (claim2_resolution_amended.2.2.1 _ _ _ _ evalKey_scE).1

/-- C3 witness: the validation equivalence instantiated at two absent
inputs. -/
theorem claim3_witness :
    verifyRoute jundef jundef = Except.error ("Missing data for verification") :=
  (claim3_validation_amended.1 jundef jundef).mpr (Or.inl rfl)

/-- C4 counterexample: the keys `text` (supplied only by OCR) and `lines`
(present in `userData`) are not dropped — each produces an outcome, against
the claimed fixed blocklist. -/
theorem claim4_counterexample :
    verifyRoute (jobj [("text", jstr ("X"))]) (jobj []) =
      Except.ok ⟨[⟨"text", "X", "", 0, 0, 0, "OCR Present",
        "OCR found a value but user left the field empty"⟩], 0⟩ ∧
    verifyRoute (jobj [("lines", jstr ("a"))]) (jobj [("lines", jstr ("a"))]) =
      Except.ok ⟨[⟨"lines", "a", "a", 100, 0, 100, "Match", ""⟩], 100⟩ :=
  ⟨verify_text, verify_lines⟩

/-- C4 (amended): the field-key set of a successful report is the union of
the `userData` keys and the OCR-contributed keys (the nested `fields` keys
when that entry is an object, else the top-level keys), minus exactly the
keys the route's guards drop: any `_confidence` suffix always, and `lines`,
`raw_text`, `average_confidence` only when `userData` lacks the key;
`text`, `raw_lines`, `fields_meta`, `confidence` and `error` are not
specially dropped. -/
theorem claim4_keyset_amended (ocr user : JVal) (r : Report)
    (h : verifyRoute ocr user = Except.ok r) (k : String) :
    k ∈ r.results.map (fun o => o.field) ↔
      ((k ∈ jkeysOf user ∨ k ∈ ocrKeysOf ocr) ∧ dropB user k = false) := by
  obtain ⟨_, hu, hres, _⟩ := verifyRoute_ok ocr user r h
  have hbk : k ∈ buildKeys ocr user ↔ k ∈ jkeysOf user ∨ k ∈ ocrKeysOf ocr := by
    unfold buildKeys
    rw [if_pos hu, mem_foldl_setAdd, mem_foldl_setAdd]
    simp
  rw [hres, results_fields, List.mem_filter, hbk]
  simp

/-- C4 witness: the key-set characterisation instantiated at the `text`
input. -/
theorem claim4_witness :
    ("text" ∈ ([⟨"text", "X", "", 0, 0, 0, "OCR Present",
        "OCR found a value but user left the field empty"⟩] : List Outcome).map
        (fun o => o.field)) ↔
      (("text" ∈ jkeysOf (jobj []) ∨ "text" ∈ ocrKeysOf (jobj [("text", jstr ("X"))])) ∧
        dropB (jobj []) ("text") = false) :=
  claim4_keyset_amended _ _ _ verify_text ("text")

/-- C7 counterexample: with `userData = \x7bb: "2"\x7d` and `ocrData = \x7ba: "1"\x7d`
the results appear as `b` before `a`, though `a < b` lexicographically — the
sequence is not sorted by key. -/
theorem claim7_counterexample :
    verifyRoute (jobj [("a", jstr ("1"))]) (jobj [("b", jstr ("2"))]) =
      Except.ok ⟨[⟨"b", "", "2", 0, 0, 0, "User Added",
          "Value provided by user but not detected by OCR"⟩,
        ⟨"a", "1", "", 0, 0, 0, "OCR Present",
          "OCR found a value but user left the field empty"⟩], 0⟩ ∧
    ("a" : String) < "b" := by
  refine ⟨verify_order, ?_⟩
  rw [String.lt_iff_toList_lt]
  decide

/-- C7 (amended): the results sequence is ordered by first insertion into
the key set — `userData` keys in enumeration order, then OCR-contributed
keys not already present — restricted to the retained keys; it is not
sorted lexicographically. -/
theorem claim7_order_amended (ocr user : JVal) (r : Report)
    (h : verifyRoute ocr user = Except.ok r) :
    r.results.map (fun o => o.field) =
      (insertionKeys ocr user).filter (fun k => !(dropB user k)) := by
  obtain ⟨_, hu, hres, _⟩ := verifyRoute_ok ocr user r h
  rw [hres, results_fields, buildKeys_eq_insertionKeys ocr user hu]

/-- C7 witness: the insertion-order characterisation instantiated at the
two-key input. -/
theorem claim7_witness :
    ([⟨"b", "", "2", 0, 0, 0, "User Added",
        "Value provided by user but not detected by OCR"⟩,
      ⟨"a", "1", "", 0, 0, 0, "OCR Present",
        "OCR found a value but user left the field empty"⟩] : List Outcome).map
        (fun o => o.field) =
      (insertionKeys (jobj [("a", jstr ("1"))]) (jobj [("b", jstr ("2"))])).filter
        (fun k => !(dropB (jobj [("b", jstr ("2"))]) k)) :=
  claim7_order_amended _ _ _ verify_order

/-- C8 counterexample: an out-of-range supplied confidence of `150` is
passed through, and the combined score `122.5` exceeds `100`. -/
theorem claim8_counterexample :
    verifyRoute (jobj [("name", jstr ("a")), ("name_confidence", jnum 150)])
      (jobj [("name", jstr ("a"))]) =
      Except.ok ⟨[⟨"name", "a", "a", 100, 150, 245 / 2, "Match", ""⟩], 245 / 2⟩ ∧
    (100 : ℚ) < 245 / 2 ∧ (100 : ℚ) < 150 := by
  refine ⟨verify_overConf, by norm_num, by norm_num⟩

/-- C8 (amended): the similarity of every outcome lies in `[0,100]`, and the
combined score lies in `[0,100]` whenever the resolved OCR confidence does;
an out-of-range supplied confidence propagates into `ocr_confidence` and
`combinedScore` unclamped. -/
theorem claim8_bounds_amended (ocr user : JVal) (key : String) (o : Outcome)
    (h : evalKey ocr user key = some o) :
    (0 ≤ o.similarity ∧ o.similarity ≤ 100) ∧
    ((0 ≤ o.ocr_confidence ∧ o.ocr_confidence ≤ 100) →
      (0 ≤ o.combinedScore ∧ o.combinedScore ≤ 100)) := by
  have hsim := simOf_bounds ocr user key
  rcases evalKey_cases ocr user key o h with ⟨hu, ho, rfl⟩ | ⟨hu, ho, rfl⟩ | ⟨hu, ho, rfl⟩ | ⟨hu, ho, rfl⟩
  · exact ⟨⟨le_refl 0, by norm_num⟩, fun _ => ⟨le_refl 0, by norm_num⟩⟩
  · exact ⟨⟨le_refl 0, by norm_num⟩, fun _ => ⟨le_refl 0, by norm_num⟩⟩
  · exact ⟨⟨le_refl 0, by norm_num⟩, fun _ => ⟨le_refl 0, by norm_num⟩⟩
  · refine ⟨hsim, fun hc => ?_⟩
    show 0 ≤ combOf ocr user key ∧ combOf ocr user key ≤ 100
    unfold combOf
    obtain ⟨hc0, hc100⟩ := hc
    by_cases hpos : ocrConfOf ocr key > 0
    · rw [if_pos hpos]
      constructor
      · nlinarith [hsim.1, hsim.2]
      · nlinarith [hsim.1, hsim.2]
    · rw [if_neg hpos]
      exact hsim

/-- C8 witness: the bound statement instantiated at Scenario B. -/
theorem claim8_witness :
    ((0 : ℚ) ≤ 90 ∧ (90 : ℚ) ≤ 100) ∧
      (((0 : ℚ) ≤ 80 ∧ (80 : ℚ) ≤ 100) → ((0 : ℚ) ≤ 171 / 2 ∧ (171 / 2 : ℚ) ≤ 100)) :=
  claim8_bounds_amended _ _ _ _ evalKey_scB

/-- C9: a field whose OCR and user value are the same string with non-empty
trim evaluates with similarity exactly `100`, because the case-insensitive
edit distance of a string with itself is `0` and the normalisation then
divides the maximal length by itself. -/
theorem claim9_self_similarity (s key : String) (hs : jsTrim s ≠ "")
    (hk : jsEndsWith key ("_confidence") = false) :
    ∃ o, evalKey (jobj [(key, jstr s)]) (jobj [(key, jstr s)]) key = some o ∧
      o.similarity = 100 ∧
      levenshtein ((jsTrim s).data.map Char.toLower) ((jsTrim s).data.map Char.toLower) = 0 := by
  have hs0 : s ≠ "" := by
    rintro rfl
    exact hs (by decide)
  have htr : truthy (jstr s) = true := by simp [truthy, hs0]
  have hget : jget [(key, jstr s)] key = jstr s := by simp [jget, List.lookup]
  have hne : ((key ++ "_confidence") == key) = false := by
    apply beq_eq_false_iff_ne.mpr
    intro hcontra
    have h1 := congrArg String.length hcontra
    rw [String.length_append] at h1
    have h2 : ("_confidence").length = 11 := by decide
    omega
  have hconf : ocrConfOf (jobj [(key, jstr s)]) key = 0 := by
    simp only [ocrConfOf]
    have hgc : jget [(key, jstr s)] (key ++ "_confidence") = jundef := by
      simp [jget, List.lookup, hne]
    rw [hgc]
    simp only [isUndef]
    cases hkf : (("fields" : String) == key) with
    | true =>
        have hfk : jget [(key, jstr s)] ("fields") = jstr s := by
          simp [jget, List.lookup, hkf]
        rw [hfk]
        simp [jgetV, isUndef]
    | false =>
        have hfk : jget [(key, jstr s)] ("fields") = jundef := by
          simp [jget, List.lookup, hkf]
        rw [hfk]
        simp [truthy]
  have huser : userValueOf (jobj [(key, jstr s)]) key = s := by
    simp [userValueOf, jgetV, hget, htr, jsToString]
  have hocr : ocrValueOf (jobj [(key, jstr s)]) key = s := by
    simp [ocrValueOf, ocrRawOf, hget, htr, jsToString]
  have hL : (jsTrim s).length ≠ 0 := fun h0 => hs (string_length_zero h0)
  have hLq : ((jsTrim s).length : ℚ) ≠ 0 := Nat.cast_ne_zero.mpr hL
  have hsim : simOf (jobj [(key, jstr s)]) (jobj [(key, jstr s)]) key = 100 := by
    unfold simOf
    rw [huser, hocr]
    simp only [levenshtein_self, Nat.max_self, Nat.cast_zero, sub_zero]
    rw [if_neg hL, div_self hLq, one_mul]
  have hhas : jhasOwn (jobj [(key, jstr s)]) key = true := by simp [jhasOwn]
  refine ⟨⟨key, jsTrim s, jsTrim s,
    simOf (jobj [(key, jstr s)]) (jobj [(key, jstr s)]) key,
    ocrConfOf (jobj [(key, jstr s)]) key,
    combOf (jobj [(key, jstr s)]) (jobj [(key, jstr s)]) key,
    classify (combOf (jobj [(key, jstr s)]) (jobj [(key, jstr s)]) key),
    if classify (combOf (jobj [(key, jstr s)]) (jobj [(key, jstr s)]) key) = "Mismatch" then
      mismatchNote else ""⟩, ?_, hsim, levenshtein_self _⟩
  simp only [evalKey, huser, hocr]
  rw [if_neg (by simp [hhas]), if_neg (by simp [hk])]
  rw [if_neg (fun hc => hs hc.1), if_neg (fun hc => hs hc.2), if_neg (fun hc => hs hc.2)]

/-- C9 witness: the self-similarity statement instantiated at the string
`Ab` under key `name`. -/
theorem claim9_witness :
    ∃ o, evalKey (jobj [("name", jstr ("Ab"))]) (jobj [("name", jstr ("Ab"))]) ("name") =
        some o ∧
      o.similarity = 100 ∧
      levenshtein ((jsTrim ("Ab")).data.map Char.toLower)
        ((jsTrim ("Ab")).data.map Char.toLower) = 0 :=
  claim9_self_similarity ("Ab") ("name") (by decide) (by decide)

/-- C10: a JavaScript-falsy entry (`0`, `false`, `null`, empty string) on
either side resolves to the empty string before trimming: a falsy user
entry forces `userValue = ""` and one of the presence statuses
`Not Provided`/`OCR Present`, a falsy OCR resolution (top-level and nested)
forces `ocrValue = ""` and `Not Provided`/`User Added` — so such fields are
never compared by edit distance — and the outcome is exactly the one
obtained with any other falsy value there, absence included, on that
side. -/
theorem claim10_falsy_empty :
    (∀ ocr user key o, evalKey ocr user key = some o → truthy (jgetV user key) = false →
        o.userValue = "" ∧ (o.status = "Not Provided" ∨ o.status = "OCR Present")) ∧
    (∀ ocr user key o, evalKey ocr user key = some o → truthy (jgetV ocr key) = false →
        truthy (jgetV (jgetV ocr ("fields")) key) = false →
        o.ocrValue = "" ∧ (o.status = "Not Provided" ∨ o.status = "User Added")) ∧
    (∀ ocr key u1 u2, truthy (jgetV u1 key) = false → truthy (jgetV u2 key) = false →
        (jhasOwn u1 key = jhasOwn u2 key ∨
          ¬(key = "lines" ∨ key = "raw_text" ∨ key = "average_confidence")) →
        evalKey ocr u1 key = evalKey ocr u2 key) ∧
    (∀ user key l1 l2, truthy (jget l1 key) = false → truthy (jget l2 key) = false →
        jget l1 ("fields") = jget l2 ("fields") →
        jget l1 (key ++ "_confidence") = jget l2 (key ++ "_confidence") →
        evalKey (jobj l1) user key = evalKey (jobj l2) user key) :=
  ⟨fun ocr user key o h hv => evalKey_user_falsy ocr user key o h hv,
   fun ocr user key o h hv hf => evalKey_ocr_falsy ocr user key o h hv hf,
   fun ocr key u1 u2 h1 h2 hh => evalKey_user_sub ocr key u1 u2 h1 h2 hh,
   fun user key l1 l2 h1 h2 hf hc => evalKey_ocr_sub user key l1 l2 h1 h2 hf hc⟩

/-- C10 witness: the falsy-user-entry case instantiated at `userData =
\x7bx: 0\x7d` against `ocrData = \x7bx: "v"\x7d`. -/
theorem claim10_witness :
    ("" : String) = "" ∧
      (("OCR Present" : String) = "Not Provided" ∨ ("OCR Present" : String) = "OCR Present") :=
  claim10_falsy_empty.1 _ _ _ _ evalKey_userFalsy0
    (by norm_num [jgetV, jget, List.lookup, truthy])

end DocVerify
